import Mathlib

/-!
Verification of the mibig-html annotation reconciliation core.

This file gives a shallow embedding, in Lean, of the Python code of the
repository (mibig_html/annotations/mibig.py, mibig_html/annotations/html_output.py,
mibig_html/common/html_renderer.py, prefetch_pubmed.py) and proves or refutes
the stated properties of that code.

Conventions used throughout:
* Python dictionaries are modelled as insertion-ordered association lists with
  unique keys (dictInsert preserves the position of an existing key, as CPython
  does).
* Python truthiness is modelled explicitly: optional integers are falsy when
  absent or zero, optional strings are falsy when absent or empty, lists are
  falsy when empty.
* Python exceptions are modelled with Except; distinct exception classes are
  distinct constructors of PyErr.
* Machine state mutated by a function (the module-level tooltip counter, the
  genomic record) is threaded explicitly through the embedded functions.
-/

/-! ## Python-semantics helpers -/

/-- Python truthiness of an optional integer: None and 0 are falsy. -/
def pyTruthyInt : Option Int → Bool
  | none => false
  | some v => v != 0

/-- Python truthiness of an optional string: None and the empty string are falsy. -/
def pyTruthyStr : Option String → Bool
  | none => false
  | some s => s != ""

/-- Python expression x or d for an optional integer x: yields d when x is falsy. -/
def pyOrInt (x : Option Int) (d : Int) : Int :=
  match x with
  | none => d
  | some v => if v = 0 then d else v

/-- Python expression x or d for an optional string x: yields d when x is falsy. -/
def pyOrStr (x : Option String) (d : String) : String :=
  match x with
  | none => d
  | some s => if s = "" then d else s

/-- Insertion into a CPython dict modelled as an association list: an existing
key keeps its position and gets the new value, a new key is appended. -/
def dictInsert {α : Type} (l : List (String × α)) (k : String) (v : α) : List (String × α) :=
  match l with
  | [] => [(k, v)]
  | (k0, v0) :: rest =>
      if k0 = k then (k0, v) :: rest else (k0, v0) :: dictInsert rest k v

/-- Code-point-wise comparison of character lists: the ordering Python uses
to sort strings. -/
def charListLe : List Char → List Char → Bool
  | [], _ => true
  | _ :: _, [] => false
  | a :: as, b :: bs =>
      if a.toNat < b.toNat then true
      else if b.toNat < a.toNat then false
      else charListLe as bs

/-- Python string comparison a <= b (lexicographic by code point). -/
def pyStrLe (a b : String) : Bool := charListLe a.data b.data

theorem charListLe_total : ∀ as bs : List Char,
    charListLe as bs = true ∨ charListLe bs as = true := by
  intro as
  induction as with
  | nil => intro bs; left; rfl
  | cons a as2 ih =>
      intro bs
      cases bs with
      | nil => right; rfl
      | cons b bs2 =>
          by_cases h1 : a.toNat < b.toNat
          · left; simp [charListLe, h1]
          · by_cases h2 : b.toNat < a.toNat
            · right; simp [charListLe, h2]
            · rcases ih bs2 with h | h
              · left; simp [charListLe, h1, h2, h]
              · right; simp [charListLe, h1, h2, h]

theorem charListLe_trans : ∀ as bs cs : List Char,
    charListLe as bs = true → charListLe bs cs = true → charListLe as cs = true := by
  intro as
  induction as with
  | nil => intro bs cs _ _; rfl
  | cons a as2 ih =>
      intro bs cs h1 h2
      cases bs with
      | nil => simp [charListLe] at h1
      | cons b bs2 =>
          cases cs with
          | nil => simp [charListLe] at h2
          | cons c cs2 =>
              simp only [charListLe] at h1 h2 ⊢
              by_cases hab1 : a.toNat < b.toNat
              · by_cases hbc1 : b.toNat < c.toNat
                · simp [show a.toNat < c.toNat by omega]
                · by_cases hbc2 : c.toNat < b.toNat
                  · rw [if_neg hbc1, if_pos hbc2] at h2
                    cases h2
                  · simp [show a.toNat < c.toNat by omega]
              · by_cases hab2 : b.toNat < a.toNat
                · rw [if_neg hab1, if_pos hab2] at h1
                  cases h1
                · rw [if_neg hab1, if_neg hab2] at h1
                  by_cases hbc1 : b.toNat < c.toNat
                  · simp [show a.toNat < c.toNat by omega]
                  · by_cases hbc2 : c.toNat < b.toNat
                    · rw [if_neg hbc1, if_pos hbc2] at h2
                      cases h2
                    · rw [if_neg hbc1, if_neg hbc2] at h2
                      rw [if_neg (show ¬a.toNat < c.toNat by omega),
                          if_neg (show ¬c.toNat < a.toNat by omega)]
                      exact ih bs2 cs2 h1 h2

theorem pyStrLe_trans (a b c : String) (h1 : pyStrLe a b = true)
    (h2 : pyStrLe b c = true) : pyStrLe a c = true :=
  charListLe_trans a.data b.data c.data h1 h2

theorem pyStrLe_of_not (a b : String) (h : ¬pyStrLe a b = true) : pyStrLe b a = true := by
  rcases charListLe_total a.data b.data with h1 | h1
  · exact absurd h1 h
  · exact h1

/-- Insertion sort step used to model Python sorted on strings. -/
def insertSorted (s : String) : List String → List String
  | [] => [s]
  | x :: xs => if pyStrLe s x then s :: x :: xs else x :: insertSorted s xs

/-- Python sorted on a list of strings (ascending lexicographic order). -/
def pyStrSort (l : List String) : List String := l.foldr insertSorted []

theorem mem_insertSorted (s x : String) (l : List String) :
    x ∈ insertSorted s l ↔ x = s ∨ x ∈ l := by
  induction l with
  | nil => simp [insertSorted]
  | cons a as ih =>
      by_cases h : pyStrLe s a = true
      · simp [insertSorted, h]
      · simp [insertSorted, h, ih]
        tauto

theorem mem_pyStrSort (x : String) (l : List String) :
    x ∈ pyStrSort l ↔ x ∈ l := by
  induction l with
  | nil => simp [pyStrSort]
  | cons a as ih =>
      simp only [pyStrSort, List.foldr] at *
      rw [mem_insertSorted]
      simp [ih]

theorem sorted_insertSorted (s : String) (l : List String)
    (h : l.Pairwise (fun a b => pyStrLe a b = true)) :
    (insertSorted s l).Pairwise (fun a b => pyStrLe a b = true) := by
  induction l with
  | nil => simp [insertSorted]
  | cons a as ih =>
      rcases List.pairwise_cons.mp h with ⟨ha, has⟩
      by_cases hle : pyStrLe s a = true
      · have heq : insertSorted s (a :: as) = s :: a :: as := by
          simp [insertSorted, hle]
        rw [heq]
        refine List.pairwise_cons.mpr ⟨?_, h⟩
        intro b hb
        cases hb with
        | head => exact hle
        | tail _ hmem => exact pyStrLe_trans _ _ _ hle (ha _ hmem)
      · have heq : insertSorted s (a :: as) = a :: insertSorted s as := by
          simp [insertSorted, hle]
        rw [heq]
        refine List.pairwise_cons.mpr ⟨?_, ih has⟩
        intro b hb
        rw [mem_insertSorted] at hb
        rcases hb with rfl | hb
        · exact pyStrLe_of_not _ _ hle
        · exact ha _ hb

theorem sorted_pyStrSort (l : List String) :
    (pyStrSort l).Pairwise (fun a b => pyStrLe a b = true) := by
  induction l with
  | nil => simp [pyStrSort]
  | cons a as ih => exact sorted_insertSorted a _ ih

/-! ## mibig_html/common/html_renderer.py : help_tooltip

The module keeps a process-wide counter in the global variable
_TOOLTIP_COUNTER; the embedding threads that counter explicitly. -/

/-- A rendered Markup value (its HTML text). -/
structure Markup where
  html : String
deriving Repr, DecidableEq

/-- The module-level state of html_renderer.py: the value of _TOOLTIP_COUNTER. -/
structure TooltipState where
  counter : Nat
deriving Repr, DecidableEq

/-- Decimal representation of a natural number, the embedding of the %d format
specifier. -/
def decRepr (n : Nat) : List Char :=
  if h : n < 10 then [Nat.digitChar n]
  else decRepr (n / 10) ++ [Nat.digitChar (n % 10)]
termination_by n
decreasing_by
  simp_wf
  omega

/-- The unique element id built by help_tooltip: "%s-help-%d" % (name, counter). -/
def tooltip_unique_id (name : String) (counter : Nat) : String :=
  name ++ "-help-" ++ String.mk (decRepr counter)

/-- Embedding of help_tooltip: increments the module-level _TOOLTIP_COUNTER,
builds the unique id from the given name and the new counter value, and renders
the tooltip markup around that id. -/
def help_tooltip (text : String) (name : String) (inline : Bool) (st : TooltipState) :
    Markup × TooltipState :=
  let counter := st.counter + 1
  let unique_id := tooltip_unique_id name counter
  let markup := "<div class=\"help-container" ++ (if inline then "-inline" else "")
      ++ "\"> <div class=\"help-icon\" data-id=\"" ++ unique_id
      ++ "\"></div> <span class=\"help-tooltip\" id=\"" ++ unique_id ++ "\">"
      ++ text ++ "</span></div>"
  (⟨markup⟩, ⟨counter⟩)

/-- One process-wide sequence of help_tooltip calls: returns, per call, the
generated unique id, the markup, and the counter value after the call. -/
def run_tooltips : List (String × String × Bool) → TooltipState →
    List (String × Markup × Nat)
  | [], _ => []
  | (text, name, inline) :: rest, st =>
      let result := help_tooltip text name inline st
      (tooltip_unique_id name result.2.counter, result.1, result.2.counter)
        :: run_tooltips rest result.2

theorem digitChar_inj (n m : Nat) (hn : n < 10) (hm : m < 10)
    (h : Nat.digitChar n = Nat.digitChar m) : n = m := by
  interval_cases n <;> interval_cases m <;> revert h <;> decide

theorem digitChar_isDigit (n : Nat) (hn : n < 10) : (Nat.digitChar n).isDigit = true := by
  interval_cases n <;> decide

theorem decRepr_ne_nil (n : Nat) : decRepr n ≠ [] := by
  rw [decRepr]
  split
  · simp
  · simp

theorem decRepr_all_digit (n : Nat) : ∀ c ∈ decRepr n, c.isDigit = true := by
  induction n using Nat.strong_induction_on with
  | _ n ih =>
      rw [decRepr]
      split
      · intro c hc
        simp only [List.mem_singleton] at hc
        subst hc
        exact digitChar_isDigit _ (by assumption)
      · intro c hc
        rw [List.mem_append] at hc
        rcases hc with hc | hc
        · exact ih (n / 10) (by omega) c hc
        · simp only [List.mem_singleton] at hc
          subst hc
          exact digitChar_isDigit _ (by omega)

theorem decRepr_small {n : Nat} (h : n < 10) : decRepr n = [Nat.digitChar n] := by
  rw [decRepr]
  simp [h]

theorem decRepr_large {n : Nat} (h : ¬n < 10) :
    decRepr n = decRepr (n / 10) ++ [Nat.digitChar (n % 10)] := by
  rw [decRepr]
  simp [h]

theorem decRepr_inj (n : Nat) : ∀ m, decRepr n = decRepr m → n = m := by
  induction n using Nat.strong_induction_on with
  | _ n ih =>
      intro m h
      by_cases hn : n < 10 <;> by_cases hm : m < 10
      · rw [decRepr_small hn, decRepr_small hm] at h
        simp only [List.cons.injEq] at h
        exact digitChar_inj n m hn hm h.1
      · exfalso
        rw [decRepr_small hn, decRepr_large hm] at h
        have h1 : decRepr (m / 10) ≠ [] := decRepr_ne_nil _
        have h2 := congrArg List.length h
        simp only [List.length_singleton, List.length_append] at h2
        have h3 : (decRepr (m / 10)).length ≠ 0 := by
          intro hz
          exact h1 (List.length_eq_zero.mp hz)
        omega
      · exfalso
        rw [decRepr_large hn, decRepr_small hm] at h
        have h1 : decRepr (n / 10) ≠ [] := decRepr_ne_nil _
        have h2 := congrArg List.length h
        simp only [List.length_singleton, List.length_append] at h2
        have h3 : (decRepr (n / 10)).length ≠ 0 := by
          intro hz
          exact h1 (List.length_eq_zero.mp hz)
        omega
      · rw [decRepr_large hn, decRepr_large hm] at h
        have hlen : ([Nat.digitChar (n % 10)] : List Char).length
            = ([Nat.digitChar (m % 10)] : List Char).length := rfl
        obtain ⟨hpre, hsuf⟩ := List.append_inj' h hlen
        have hdiv : n / 10 = m / 10 := ih (n / 10) (by omega) (m / 10) hpre
        simp only [List.cons.injEq] at hsuf
        have hmod : n % 10 = m % 10 :=
          digitChar_inj _ _ (by omega) (by omega) hsuf.1
        omega

theorem takeWhile_digit_append (l r : List Char) (hl : ∀ c ∈ l, c.isDigit = true) :
    (l ++ '-' :: r).takeWhile (fun c => c.isDigit) = l := by
  induction l with
  | nil => simp [List.takeWhile]
  | cons c cs ih =>
      have hc : c.isDigit = true := hl c (List.mem_cons_self c cs)
      simp only [List.cons_append, List.takeWhile_cons, hc]
      simp only [if_true]
      rw [ih (fun d hd => hl d (List.mem_cons_of_mem c hd))]

theorem digits_after_dash_inj (x y dn dm : List Char)
    (hdn : ∀ c ∈ dn, c.isDigit = true) (hdm : ∀ c ∈ dm, c.isDigit = true)
    (h : x ++ '-' :: dn = y ++ '-' :: dm) : dn = dm := by
  have hrev := congrArg List.reverse h
  simp only [List.reverse_append, List.reverse_cons, List.append_assoc,
    List.singleton_append] at hrev
  have htw := congrArg (List.takeWhile (fun c => c.isDigit)) hrev
  rw [takeWhile_digit_append _ _ (fun c hc => hdn c (List.mem_reverse.mp hc)),
      takeWhile_digit_append _ _ (fun c hc => hdm c (List.mem_reverse.mp hc))] at htw
  exact List.reverse_injective htw

theorem tooltip_unique_id_data (a : String) (n : Nat) :
    (tooltip_unique_id a n).data
      = (a.data ++ [Char.ofNat 45, Char.ofNat 104, Char.ofNat 101, Char.ofNat 108,
          Char.ofNat 112]) ++ '-' :: decRepr n := by
  simp [tooltip_unique_id]

theorem tooltip_unique_id_inj (a b : String) (n m : Nat)
    (h : tooltip_unique_id a n = tooltip_unique_id b m) : n = m := by
  have hd := congrArg String.data h
  rw [tooltip_unique_id_data, tooltip_unique_id_data] at hd
  exact decRepr_inj n m
    (digits_after_dash_inj _ _ _ _ (decRepr_all_digit n) (decRepr_all_digit m) hd)

theorem run_tooltips_mem (calls : List (String × String × Bool)) (st : TooltipState)
    (r : String × Markup × Nat) (hr : r ∈ run_tooltips calls st) :
    (∃ name, r.1 = tooltip_unique_id name r.2.2) ∧ st.counter < r.2.2 := by
  induction calls generalizing st with
  | nil => simp [run_tooltips] at hr
  | cons c rest ih =>
      obtain ⟨text, name, inline⟩ := c
      simp only [run_tooltips, List.mem_cons] at hr
      rcases hr with rfl | hr
      · exact ⟨⟨name, rfl⟩, Nat.lt_succ_self _⟩
      · obtain ⟨hname, hlt⟩ := ih _ hr
        exact ⟨hname, Nat.lt_trans (Nat.lt_succ_self _) hlt⟩

theorem run_tooltips_counters_increasing (calls : List (String × String × Bool))
    (st : TooltipState) :
    ((run_tooltips calls st).map (fun r => r.2.2)).Pairwise (· < ·) := by
  induction calls generalizing st with
  | nil => simp [run_tooltips]
  | cons c rest ih =>
      obtain ⟨text, name, inline⟩ := c
      simp only [run_tooltips, List.map_cons]
      refine List.pairwise_cons.mpr ⟨?_, ih _⟩
      intro b hb
      simp only [List.mem_map] at hb
      obtain ⟨r, hr, rfl⟩ := hb
      exact (run_tooltips_mem rest _ r hr).2

theorem run_tooltips_ids_distinct (calls : List (String × String × Bool))
    (st : TooltipState) :
    ((run_tooltips calls st).map (fun r => r.1)).Pairwise (· ≠ ·) := by
  induction calls generalizing st with
  | nil => simp [run_tooltips]
  | cons c rest ih =>
      obtain ⟨text, name, inline⟩ := c
      simp only [run_tooltips, List.map_cons]
      refine List.pairwise_cons.mpr ⟨?_, ih _⟩
      intro b hb heq
      simp only [List.mem_map] at hb
      obtain ⟨r, hr, rfl⟩ := hb
      obtain ⟨⟨nm, hnm⟩, hlt⟩ := run_tooltips_mem rest _ r hr
      rw [hnm] at heq
      have h2 := tooltip_unique_id_inj _ _ _ _ heq
      simp only [help_tooltip] at hlt h2
      omega

/-- C10: every call to help_tooltip increments the process-wide counter
_TOOLTIP_COUNTER and embeds the new counter value in the generated element id
of the form name-help-n; hence over any sequence of calls within one process,
even across separate render invocations and with identical arguments, the
counters are strictly increasing and the generated ids are pairwise distinct. -/
theorem help_tooltip_counter_increments_and_ids_distinct
    (calls : List (String × String × Bool)) (st : TooltipState) :
    (∀ text name inline s, (help_tooltip text name inline s).2.counter = s.counter + 1)
    ∧ (∀ text name inline s, (help_tooltip text name inline s).1.html
        = "<div class=\"help-container" ++ (if inline then "-inline" else "")
          ++ "\"> <div class=\"help-icon\" data-id=\""
          ++ tooltip_unique_id name (s.counter + 1)
          ++ "\"></div> <span class=\"help-tooltip\" id=\""
          ++ tooltip_unique_id name (s.counter + 1) ++ "\">"
          ++ text ++ "</span></div>")
    ∧ ((run_tooltips calls st).map (fun r => r.2.2)).Pairwise (· < ·)
    ∧ ((run_tooltips calls st).map (fun r => r.1)).Pairwise (· ≠ ·) := by
  refine ⟨fun _ _ _ _ => rfl, fun _ _ _ _ => rfl,
    run_tooltips_counters_increasing calls st, run_tooltips_ids_distinct calls st⟩

theorem insertSorted_perm (s : String) (l : List String) :
    (insertSorted s l).Perm (s :: l) := by
  induction l with
  | nil => simp [insertSorted]
  | cons a as ih =>
      by_cases h : pyStrLe s a = true
      · simp [insertSorted, h]
      · have heq : insertSorted s (a :: as) = a :: insertSorted s as := by
          simp [insertSorted, h]
        rw [heq]
        exact (List.Perm.cons a ih).trans (List.Perm.swap s a as)

theorem pyStrSort_perm (l : List String) : (pyStrSort l).Perm l := by
  induction l with
  | nil => simp [pyStrSort]
  | cons a as ih =>
      have : pyStrSort (a :: as) = insertSorted a (pyStrSort as) := rfl
      rw [this]
      exact (insertSorted_perm a (pyStrSort as)).trans (List.Perm.cons a ih)

/-! ## mibig_html/annotations/mibig.py : PubmedEntry and PubmedCache -/

/-- An entry of the PubMed reference cache. -/
structure PubmedEntry where
  title : String
  authors : List String
  year : String
  journal : String
  pmid : String
deriving Repr, DecidableEq

/-- The info property of a PubmedEntry; the source indexes authors[0], which
presupposes a non-empty author list. -/
def PubmedEntry.info (e : PubmedEntry) : String :=
  e.authors.headD "" ++ " et al., " ++ e.journal ++ " (" ++ e.year ++ ") PMID:" ++ e.pmid

/-- The PubMed reference cache: the mappings dict keyed by pmid. -/
structure PubmedCache where
  mappings : List (String × PubmedEntry)
deriving Repr, DecidableEq

/-- Embedding of PubmedCache.add. -/
def PubmedCache.add (c : PubmedCache) (title : String) (authors : List String)
    (year : String) (journal : String) (pmid : String) : PubmedCache :=
  ⟨dictInsert c.mappings pmid ⟨title, authors, year, journal, pmid⟩⟩

/-- Embedding of PubmedCache.get; a missing key raises KeyError in the source,
modelled as none. -/
def PubmedCache.get (c : PubmedCache) (pmid : String) : Option PubmedEntry :=
  c.mappings.lookup pmid

/-- Embedding of PubmedCache.get_missing: sorted(list(want - have)) where have
is the set of keys of the mappings dict. -/
def PubmedCache.get_missing (c : PubmedCache) (want : List String) : List String :=
  pyStrSort ((want.filter (fun w => (c.mappings.lookup w).isNone)).dedup)

/-- C7: get_missing returns exactly the wanted identifiers that are not keys of
the cache mapping, sorted and without duplicates (set-subtraction against the
cached keys); in particular, on a cache already containing key 111, asking for
111 and 222 returns exactly 222. -/
theorem mem_get_missing (c : PubmedCache) (want : List String) (x : String) :
    x ∈ c.get_missing want ↔ (x ∈ want ∧ c.get x = none) := by
  rw [PubmedCache.get_missing, mem_pyStrSort, List.mem_dedup, List.mem_filter]
  simp [PubmedCache.get, Option.isNone_iff_eq_none]

theorem PubmedCache_get_missing_set_subtraction_sorted :
    (∀ (c : PubmedCache) (want : List String),
        (∀ x, x ∈ c.get_missing want ↔ (x ∈ want ∧ c.get x = none))
        ∧ (c.get_missing want).Pairwise (fun a b => pyStrLe a b = true)
        ∧ (c.get_missing want).Nodup)
    ∧ PubmedCache.get_missing ⟨[("111", ⟨"A title", ["A"], "2000", "J", "111"⟩)]⟩
        ["111", "222"] = ["222"] := by
  constructor
  · intro c want
    refine ⟨mem_get_missing c want, sorted_pyStrSort _, ?_⟩
    rw [PubmedCache.get_missing]
    exact (pyStrSort_perm _).nodup_iff.mpr (List.nodup_dedup _)
  · rfl

/-! ## mibig_html/annotations/html_output.py : ReferenceCollection -/

/-- A citation: database kind (pubmed, doi, ...) plus identifier value. -/
structure Citation where
  database : String
  value : String
deriving Repr, DecidableEq

/-- A single reference link tracked by the collection (title and info start
out empty and are filled in by resolution). -/
structure ReferenceLink where
  citation : Citation
  title : String
  info : String
deriving Repr, DecidableEq

/-- Modelled from the spec: the DOI cache entry of
mibig_html/annotations/references.py, a module not present in the sources;
per the spec a CacheEntry has title, authors, year, journal and identifier,
with a derived info string. -/
structure DoiEntry where
  title : String
  authors : List String
  year : String
  journal : String
  identifier : String
deriving Repr, DecidableEq

/-- Modelled from the spec: the derived info string of a DOI cache entry. -/
def DoiEntry.info (e : DoiEntry) : String :=
  e.authors.headD "" ++ " et al., " ++ e.journal ++ " (" ++ e.year ++ ") DOI:" ++ e.identifier

/-- Modelled from the spec: the DOI reference cache, a mapping from identifier
to entry. -/
structure DoiCache where
  mappings : List (String × DoiEntry)
deriving Repr, DecidableEq

/-- Modelled from the spec: DoiCache.get; a cache miss on get is a contract
error (KeyError), modelled as none. -/
def DoiCache.get (c : DoiCache) (doi : String) : Option DoiEntry :=
  c.mappings.lookup doi

/-- True exactly for the citations skipped by the ReferenceCollection
constructor: a PubMed citation with the null-sentinel identifier 0. -/
def skippedCitation (p : Citation) : Bool :=
  p.database = "pubmed" && p.value = "0"

/-- The constructor loop of ReferenceCollection.__init__: walks the ordered
publication list accumulating the pmid list, the doi list and the references
dict; a pubmed citation with value 0 is skipped entirely (continue). -/
def collect_citations (st : List String × List String × List (String × ReferenceLink)) :
    List Citation → List String × List String × List (String × ReferenceLink)
  | [] => st
  | pub :: rest =>
      let (pmids, dois, refs) := st
      if pub.database = "pubmed" then
        if pub.value = "0" then
          collect_citations (pmids, dois, refs) rest
        else
          collect_citations
            (pmids ++ [pub.value], dois, dictInsert refs pub.value ⟨pub, "", ""⟩) rest
      else if pub.database = "doi" then
        collect_citations
          (pmids, dois ++ [pub.value], dictInsert refs pub.value ⟨pub, "", ""⟩) rest
      else
        collect_citations (pmids, dois, dictInsert refs pub.value ⟨pub, "", ""⟩) rest

/-- Assignment references[k].title, references[k].info (the key is always
present when the source performs it). -/
def updateRef (refs : List (String × ReferenceLink)) (k : String) (title info : String) :
    List (String × ReferenceLink) :=
  refs.map (fun p => if p.1 = k then (p.1, ⟨p.2.citation, title, info⟩) else p)

/-- The final loop of _resolve_pmids: for each pmid, get the cache entry (a
miss raises KeyError) and copy its title and info onto the reference link. -/
def applyPmidEntries (cache : PubmedCache) (refs : List (String × ReferenceLink)) :
    List String → Except String (List (String × ReferenceLink))
  | [] => .ok refs
  | p :: rest =>
      match cache.get p with
      | none => .error ("KeyError: " ++ p)
      | some e => applyPmidEntries cache (updateRef refs p e.title e.info) rest

/-- The cache after the conditional batched fetch of _resolve_pmids: when the
missing subset is non-empty, one client call is made for exactly that subset
and each returned article is added to the cache. -/
def cacheAfterFetch (cache : PubmedCache) (client : List String → List PubmedEntry)
    (pmids : List String) : PubmedCache :=
  if cache.get_missing pmids = [] then cache
  else (client (cache.get_missing pmids)).foldl
    (fun c a => c.add a.title a.authors a.year a.journal a.pmid) cache

/-- The batches handed to the external client by _resolve_pmids. -/
def fetchBatches (cache : PubmedCache) (pmids : List String) : List (List String) :=
  if cache.get_missing pmids = [] then [] else [cache.get_missing pmids]

/-- Embedding of ReferenceCollection._resolve_pmids. The external eutils
client is a parameter mapping a batch of requested ids to fetched articles;
returns the updated cache, the list of batches handed to the client, and the
updated references. -/
def resolve_pmids (cache : PubmedCache) (client : List String → List PubmedEntry)
    (refs : List (String × ReferenceLink)) (pmids : List String) :
    Except String (PubmedCache × List (List String) × List (String × ReferenceLink)) :=
  if pmids = [] then .ok (cache, [], refs)
  else
    (applyPmidEntries (cacheAfterFetch cache client pmids) refs pmids).map
      (fun refs1 => (cacheAfterFetch cache client pmids, fetchBatches cache pmids, refs1))

/-- The final loop of _resolve_dois: each doi is looked up in the DOI cache
(a miss raises KeyError) and its title and info copied onto the link. -/
def resolve_dois (dc : DoiCache) (refs : List (String × ReferenceLink)) :
    List String → Except String (List (String × ReferenceLink))
  | [] => .ok refs
  | d :: rest =>
      match dc.get d with
      | none => .error ("KeyError: " ++ d)
      | some e => resolve_dois dc (updateRef refs d e.title e.info) rest

/-- The observable outcome of constructing a ReferenceCollection: the
references dict, the updated PubMed cache, the batches fetched from the
external client, and the pmid/doi lists driving the cache lookups. -/
structure RefCollection where
  references : List (String × ReferenceLink)
  pubmed_cache : PubmedCache
  fetches : List (List String)
  pmids : List String
  dois : List String
deriving Repr, DecidableEq

/-- Embedding of ReferenceCollection.__init__ followed by get_links: collects
the citations, resolves pmids (with at most one batched external fetch) and
dois. -/
def ReferenceCollection_build (publications : List Citation) (pc : PubmedCache)
    (dc : DoiCache) (client : List String → List PubmedEntry) :
    Except String RefCollection :=
  let t := collect_citations ([], [], []) publications
  match resolve_pmids pc client t.2.2 t.1 with
  | .error e => .error e
  | .ok (cache1, fetched, refs1) =>
      match resolve_dois dc refs1 t.2.1 with
      | .error e => .error e
      | .ok refs2 => .ok ⟨refs2, cache1, fetched, t.1, t.2.1⟩

/-- Embedding of ReferenceCollection.get_links: the dict values in insertion
order. -/
def RefCollection.get_links (rc : RefCollection) : List ReferenceLink :=
  rc.references.map Prod.snd

/-- First-occurrence order of a list of keys: how a CPython dict orders its
keys when fed these keys in sequence. -/
def firstOccurrences (acc : List String) : List String → List String
  | [] => acc
  | x :: xs => firstOccurrences (if x ∈ acc then acc else acc ++ [x]) xs

theorem mem_dictInsert {α : Type} (l : List (String × α)) (k : String) (v : α)
    (kl : String × α) (h : kl ∈ dictInsert l k v) : kl = (k, v) ∨ kl ∈ l := by
  induction l with
  | nil => simp [dictInsert] at h; simp [h]
  | cons p rest ih =>
      obtain ⟨k0, v0⟩ := p
      by_cases hk : k0 = k
      · simp only [dictInsert, if_pos hk, List.mem_cons] at h
        rcases h with rfl | h
        · left
          rw [hk]
        · exact Or.inr (List.mem_cons_of_mem _ h)
      · simp only [dictInsert, if_neg hk, List.mem_cons] at h
        rcases h with rfl | h
        · exact Or.inr (List.mem_cons_self _ _)
        · rcases ih h with h1 | h1
          · exact Or.inl h1
          · exact Or.inr (List.mem_cons_of_mem _ h1)

theorem keys_dictInsert {α : Type} (l : List (String × α)) (k : String) (v : α) :
    (dictInsert l k v).map Prod.fst
      = if k ∈ l.map Prod.fst then l.map Prod.fst else l.map Prod.fst ++ [k] := by
  induction l with
  | nil => simp [dictInsert]
  | cons p rest ih =>
      obtain ⟨k0, v0⟩ := p
      by_cases hk : k0 = k
      · subst hk
        simp [dictInsert]
      · simp only [dictInsert, if_neg hk, List.map_cons, ih, List.mem_cons]
        have : ¬k = k0 := fun h => hk h.symm
        by_cases hmem : k ∈ rest.map Prod.fst
        · simp [hmem, this]
        · simp [hmem, this]

theorem updateRef_keyCit (refs : List (String × ReferenceLink)) (k : String)
    (title info : String) :
    (updateRef refs k title info).map (fun p => (p.1, p.2.citation))
      = refs.map (fun p => (p.1, p.2.citation)) := by
  rw [updateRef, List.map_map]
  apply List.map_congr_left
  intro p _
  by_cases hp : p.1 = k <;> simp [hp]

theorem applyPmidEntries_keyCit (cache : PubmedCache) (ps : List String) :
    ∀ refs refs1, applyPmidEntries cache refs ps = .ok refs1 →
      refs1.map (fun p => (p.1, p.2.citation)) = refs.map (fun p => (p.1, p.2.citation)) := by
  induction ps with
  | nil =>
      intro refs refs1 h
      simp only [applyPmidEntries] at h
      cases h
      rfl
  | cons p rest ih =>
      intro refs refs1 h
      simp only [applyPmidEntries] at h
      cases hget : cache.get p with
      | none => rw [hget] at h; cases h
      | some e =>
          rw [hget] at h
          rw [ih _ _ h, updateRef_keyCit]

theorem resolve_dois_keyCit (dc : DoiCache) (ds : List String) :
    ∀ refs refs1, resolve_dois dc refs ds = .ok refs1 →
      refs1.map (fun p => (p.1, p.2.citation)) = refs.map (fun p => (p.1, p.2.citation)) := by
  induction ds with
  | nil =>
      intro refs refs1 h
      simp only [resolve_dois] at h
      cases h
      rfl
  | cons d rest ih =>
      intro refs refs1 h
      simp only [resolve_dois] at h
      cases hget : dc.get d with
      | none => rw [hget] at h; cases h
      | some e =>
          rw [hget] at h
          rw [ih _ _ h, updateRef_keyCit]

theorem resolve_pmids_ok (cache : PubmedCache) (client : List String → List PubmedEntry)
    (refs : List (String × ReferenceLink)) (pmids : List String)
    (cache1 : PubmedCache) (fetched : List (List String))
    (refs1 : List (String × ReferenceLink))
    (h : resolve_pmids cache client refs pmids = .ok (cache1, fetched, refs1)) :
    fetched = fetchBatches cache pmids
    ∧ refs1.map (fun p => (p.1, p.2.citation)) = refs.map (fun p => (p.1, p.2.citation)) := by
  rw [resolve_pmids] at h
  by_cases hp : pmids = []
  · rw [if_pos hp] at h
    cases h
    subst hp
    exact ⟨rfl, rfl⟩
  · rw [if_neg hp] at h
    cases happ : applyPmidEntries (cacheAfterFetch cache client pmids) refs pmids with
    | error e => rw [happ] at h; cases h
    | ok refsx =>
        rw [happ] at h
        simp only [Except.map] at h
        cases h
        exact ⟨rfl, applyPmidEntries_keyCit _ _ _ _ happ⟩

theorem collect_citations_pmids (pubs : List Citation) :
    ∀ st, (collect_citations st pubs).1
      = st.1 ++ (pubs.filter
          (fun p => p.database = "pubmed" && !(p.value = "0"))).map (fun p => p.value) := by
  induction pubs with
  | nil => intro st; simp [collect_citations]
  | cons pub rest ih =>
      intro st
      obtain ⟨pmids, dois, refs⟩ := st
      by_cases h1 : pub.database = "pubmed"
      · by_cases h2 : pub.value = "0"
        · simp [collect_citations, h1, h2, ih]
        · simp [collect_citations, h1, h2, ih]
      · by_cases h3 : pub.database = "doi"
        · simp [collect_citations, h1, h3, ih]
        · simp [collect_citations, h1, h3, ih]

theorem collect_citations_keys (pubs : List Citation) :
    ∀ st, ((collect_citations st pubs).2.2).map Prod.fst
      = firstOccurrences (st.2.2.map Prod.fst)
          ((pubs.filter (fun p => !skippedCitation p)).map (fun p => p.value)) := by
  induction pubs with
  | nil => intro st; simp [collect_citations, firstOccurrences]
  | cons pub rest ih =>
      intro st
      obtain ⟨pmids, dois, refs⟩ := st
      by_cases h1 : pub.database = "pubmed"
      · by_cases h2 : pub.value = "0"
        · simp [collect_citations, h1, h2, ih, skippedCitation]
        · simp only [collect_citations, if_pos h1, if_neg h2]
          rw [ih]
          have hskip : skippedCitation pub = false := by
            simp [skippedCitation, h1, h2]
          simp [hskip, firstOccurrences, keys_dictInsert]
      · have hskip : skippedCitation pub = false := by
          simp [skippedCitation, h1]
        by_cases h3 : pub.database = "doi"
        · simp only [collect_citations, if_neg h1, if_pos h3]
          rw [ih]
          simp [hskip, firstOccurrences, keys_dictInsert]
        · simp only [collect_citations, if_neg h1, if_neg h3]
          rw [ih]
          simp [hskip, firstOccurrences, keys_dictInsert]

theorem collect_citations_no_skipped_links (pubs : List Citation) :
    ∀ st, (∀ kl ∈ st.2.2, skippedCitation (kl : String × ReferenceLink).2.citation = false) →
      ∀ kl ∈ (collect_citations st pubs).2.2, skippedCitation kl.2.citation = false := by
  induction pubs with
  | nil => intro st hst; simpa [collect_citations] using hst
  | cons pub rest ih =>
      intro st hst
      obtain ⟨pmids, dois, refs⟩ := st
      by_cases h1 : pub.database = "pubmed"
      · by_cases h2 : pub.value = "0"
        · simp only [collect_citations, if_pos h1, if_pos h2]
          exact ih _ hst
        · simp only [collect_citations, if_pos h1, if_neg h2]
          refine ih _ ?_
          intro kl hkl
          rcases mem_dictInsert _ _ _ _ hkl with rfl | hkl
          · simp [skippedCitation, h2]
          · exact hst kl hkl
      · by_cases h3 : pub.database = "doi"
        · simp only [collect_citations, if_neg h1, if_pos h3]
          refine ih _ ?_
          intro kl hkl
          rcases mem_dictInsert _ _ _ _ hkl with rfl | hkl
          · simp [skippedCitation, h1]
          · exact hst kl hkl
        · simp only [collect_citations, if_neg h1, if_neg h3]
          refine ih _ ?_
          intro kl hkl
          rcases mem_dictInsert _ _ _ _ hkl with rfl | hkl
          · simp [skippedCitation, h1]
          · exact hst kl hkl

theorem mem_fetchBatches (cache : PubmedCache) (pmids : List String)
    (b : List String) (hb : b ∈ fetchBatches cache pmids) :
    b = cache.get_missing pmids := by
  rw [fetchBatches] at hb
  split at hb
  · simp at hb
  · simpa using hb

/-- C8: a PubMed citation with the null-sentinel identifier 0 is skipped
entirely by ReferenceCollection: it is not in the pmid list that drives cache
lookups, appears in no batch handed to the external client, and is absent from
get_links, while all other citations appear keyed in first-encounter order;
an external fetch happens only when get_missing is non-empty and is made for
exactly that missing subset, so already-cached identifiers are never
refetched. -/
theorem ReferenceCollection_skips_zero_and_fetches_exactly_missing
    (pubs : List Citation) (pc : PubmedCache) (dc : DoiCache)
    (client : List String → List PubmedEntry) (rc : RefCollection)
    (h : ReferenceCollection_build pubs pc dc client = .ok rc) :
    rc.pmids = (pubs.filter
        (fun p => p.database = "pubmed" && !(p.value = "0"))).map (fun p => p.value)
    ∧ "0" ∉ rc.pmids
    ∧ rc.fetches = fetchBatches pc rc.pmids
    ∧ (∀ b ∈ rc.fetches, ∀ x ∈ b, x ∈ rc.pmids ∧ pc.get x = none)
    ∧ (∀ b ∈ rc.fetches, "0" ∉ b)
    ∧ rc.references.map Prod.fst
        = firstOccurrences [] ((pubs.filter (fun p => !skippedCitation p)).map (fun p => p.value))
    ∧ (∀ l ∈ rc.get_links, skippedCitation l.citation = false) := by
  simp only [ReferenceCollection_build] at h
  cases hrp : resolve_pmids pc client
      (collect_citations ([], [], []) pubs).2.2
      (collect_citations ([], [], []) pubs).1 with
  | error e => rw [hrp] at h; cases h
  | ok triple =>
      obtain ⟨cache1, fetched, refs1⟩ := triple
      rw [hrp] at h
      dsimp only [] at h
      cases hrd : resolve_dois dc refs1 (collect_citations ([], [], []) pubs).2.1 with
      | error e => rw [hrd] at h; cases h
      | ok refs2 =>
          rw [hrd] at h
          dsimp only [] at h
          cases h
          obtain ⟨hfetch, hkeycit1⟩ := resolve_pmids_ok _ _ _ _ _ _ _ hrp
          have hkeycit2 := resolve_dois_keyCit _ _ _ _ hrd
          have hpm := collect_citations_pmids pubs ([], [], [])
          simp only [List.nil_append] at hpm
          have hzero : "0" ∉ (collect_citations ([], [], []) pubs).1 := by
            rw [hpm]
            intro h0
            simp only [List.mem_map, List.mem_filter] at h0
            obtain ⟨p, hp, hpv⟩ := h0
            rw [hpv] at hp
            simp at hp
          refine ⟨hpm, hzero, hfetch, ?_, ?_, ?_, ?_⟩
          · intro b hb x hx
            rw [hfetch] at hb
            have hb2 := mem_fetchBatches _ _ _ hb
            subst hb2
            exact (mem_get_missing _ _ _).mp hx
          · intro b hb h0
            rw [hfetch] at hb
            have hb2 := mem_fetchBatches _ _ _ hb
            subst hb2
            exact hzero ((mem_get_missing _ _ _).mp h0).1
          · have e1 : (refs2.map (fun p => (p.1, p.2.citation))).map Prod.fst
                = refs2.map Prod.fst := by
              rw [List.map_map]
              apply List.map_congr_left
              intro p _
              rfl
            have e2 : (((collect_citations ([], [], []) pubs).2.2).map
                  (fun p => (p.1, p.2.citation))).map Prod.fst
                = ((collect_citations ([], [], []) pubs).2.2).map Prod.fst := by
              rw [List.map_map]
              apply List.map_congr_left
              intro p _
              rfl
            have hk2 : refs2.map Prod.fst
                = ((collect_citations ([], [], []) pubs).2.2).map Prod.fst := by
              rw [← e1, hkeycit2, hkeycit1, e2]
            rw [hk2, collect_citations_keys pubs ([], [], [])]
            rfl
          · intro l hl
            simp only [RefCollection.get_links, List.mem_map] at hl
            obtain ⟨kl, hkl, rfl⟩ := hl
            have hmem : (kl.1, kl.2.citation) ∈ refs2.map (fun p => (p.1, p.2.citation)) :=
              List.mem_map_of_mem _ hkl
            rw [hkeycit2, hkeycit1] at hmem
            simp only [List.mem_map] at hmem
            obtain ⟨kl0, hkl0, heq⟩ := hmem
            have hcit : kl0.2.citation = kl.2.citation := congrArg Prod.snd heq
            rw [← hcit]
            exact collect_citations_no_skipped_links pubs ([], [], [])
              (by intro x hx; simp at hx) kl0 hkl0

/-- Concrete publication list for exercising the resolver: a skipped pubmed 0
citation, a PubMed citation and a DOI citation. -/
def rcDemoPubs : List Citation := [⟨"pubmed", "0"⟩, ⟨"pubmed", "111"⟩, ⟨"doi", "10.1"⟩]

def rcDemoPc : PubmedCache := ⟨[]⟩

def rcDemoDc : DoiCache := ⟨[("10.1", ⟨"DT", ["D"], "2021", "DJ", "10.1"⟩)]⟩

def rcDemoClient : List String → List PubmedEntry := fun _ => [⟨"T", ["A"], "2020", "J", "111"⟩]

/-- The collection built from the demo inputs. -/
def rcDemoExpected : RefCollection :=
  ⟨[("111", ⟨⟨"pubmed", "111"⟩, "T", "A et al., J (2020) PMID:111"⟩),
    ("10.1", ⟨⟨"doi", "10.1"⟩, "DT", "D et al., DJ (2021) DOI:10.1"⟩)],
   ⟨[("111", ⟨"T", ["A"], "2020", "J", "111"⟩)]⟩,
   [["111"]], ["111"], ["10.1"]⟩

theorem ReferenceCollection_skips_zero_witness :
    ReferenceCollection_build rcDemoPubs rcDemoPc rcDemoDc rcDemoClient
        = Except.ok rcDemoExpected
    ∧ "0" ∉ rcDemoExpected.pmids
    ∧ rcDemoExpected.fetches = fetchBatches rcDemoPc rcDemoExpected.pmids :=
  ⟨rfl,
   (ReferenceCollection_skips_zero_and_fetches_exactly_missing
      rcDemoPubs rcDemoPc rcDemoDc rcDemoClient rcDemoExpected rfl).2.1,
   (ReferenceCollection_skips_zero_and_fetches_exactly_missing
      rcDemoPubs rcDemoPc rcDemoDc rcDemoClient rcDemoExpected rfl).2.2.1⟩

/-! ## prefetch_pubmed.py -/

/-- A JSON document, as traversed by gather_references. -/
inductive Json where
  | obj : List (String × Json) → Json
  | arr : List Json → Json
  | str : String → Json
  | other : Json

/-- Python s.startswith(p): p is a character prefix of s. -/
def pyStartsWith (s p : String) : Bool := p.data.isPrefixOf s.data

/-- Python s.split()[0] for a string with no leading whitespace: the first
whitespace-separated token. -/
def pyFirstToken (s : String) : String :=
  String.mk (s.data.takeWhile (fun c => !c.isWhitespace))

/-- Python s[n:] character slicing. -/
def pyDropChars (s : String) (n : Nat) : String := String.mk (s.data.drop n)

mutual

/-- Embedding of gather_references: walks nested dicts and lists; every string
with the pubmed: prefix contributes a citation parsed (Citation.from_json)
from its first whitespace-separated token. -/
def gather_references : Json → List Citation
  | .obj kvs => gatherKVs kvs
  | .arr xs => gatherJsonList xs
  | .str s =>
      if pyStartsWith s "pubmed:" then [⟨"pubmed", pyDropChars (pyFirstToken s) 7⟩]
      else []
  | .other => []

/-- The dict part of the gather_references traversal, in dict order. -/
def gatherKVs : List (String × Json) → List Citation
  | [] => []
  | kv :: rest => gather_references kv.2 ++ gatherKVs rest

/-- The list part of the gather_references traversal, in list order. -/
def gatherJsonList : List Json → List Citation
  | [] => []
  | x :: rest => gather_references x ++ gatherJsonList rest

end

/-- Embedding of extract_pmids. The loop body rebinds the citations variable
on every file, so only the last file contributes; an empty file list leaves
citations unbound (a NameError in the source), modelled as none. -/
def extract_pmids (files : List Json) : Option (List String) :=
  (files.foldl (fun _ f => some (gather_references f)) none).map
    (fun citations => pyStrSort ((citations.map (fun c => c.value)).dedup))

/-- The fetch loop of fetch_all: refetch get_missing until it is empty, with
explicit fuel since the source loop need not terminate; returns the final
cache and the batches requested from the external client. -/
def fetch_all_loop (client : List String → List PubmedEntry) (pmids_global : List String) :
    Nat → PubmedCache → List (List String) → Option (PubmedCache × List (List String))
  | 0, cache, batches =>
      if cache.get_missing pmids_global = [] then some (cache, batches) else none
  | fuel + 1, cache, batches =>
      if cache.get_missing pmids_global = [] then some (cache, batches)
      else
        fetch_all_loop client pmids_global fuel
          ((client (cache.get_missing pmids_global)).foldl
            (fun c a => c.add a.title a.authors a.year a.journal a.pmid) cache)
          (batches ++ [cache.get_missing pmids_global])

/-- Embedding of fetch_all: the body reads the module-level pmids variable
(pmids_global here), never its own citations parameter. -/
def fetch_all (cache : PubmedCache) (pmids_global : List String)
    (citations_param : List String) (client : List String → List PubmedEntry)
    (fuel : Nat) : Option (PubmedCache × List (List String)) :=
  fetch_all_loop client pmids_global fuel cache []

/-- Embedding of the script entry point: extract pmids from the input files
(binding the module-level pmids) and warm the cache. -/
def prefetch_pubmed_main (files : List Json) (cache : PubmedCache)
    (client : List String → List PubmedEntry) (fuel : Nat) :
    Option (Option (PubmedCache × List (List String))) :=
  (extract_pmids files).map (fun pmids => fetch_all cache pmids pmids client fuel)

theorem foldl_rebind (g : Json → List Citation) :
    ∀ (files : List Json) (init : Option (List Citation)), files ≠ [] →
      files.foldl (fun _ f => some (g f)) init = some (g (files.getLastD Json.other)) := by
  intro files
  induction files with
  | nil => intro init h; exact absurd rfl h
  | cons f rest ih =>
      intro init _
      cases rest with
      | nil => rfl
      | cons f2 rest2 =>
          have h2 : (f :: f2 :: rest2).foldl (fun _ fi => some (g fi)) init
              = (f2 :: rest2).foldl (fun _ fi => some (g fi)) (some (g f)) := rfl
          rw [h2, ih (some (g f)) (by simp)]
          rfl

theorem fetch_all_loop_batches (client : List String → List PubmedEntry)
    (pmids_global : List String) :
    ∀ (fuel : Nat) (cache : PubmedCache) (batches0 : List (List String))
      (cacheF : PubmedCache) (batches : List (List String)),
      fetch_all_loop client pmids_global fuel cache batches0 = some (cacheF, batches) →
      (∀ b ∈ batches0, ∀ x ∈ b, x ∈ pmids_global) →
      ∀ b ∈ batches, ∀ x ∈ b, x ∈ pmids_global := by
  intro fuel
  induction fuel with
  | zero =>
      intro cache batches0 cacheF batches h h0
      simp only [fetch_all_loop] at h
      split at h
      · cases h; exact h0
      · cases h
  | succ fuel ih =>
      intro cache batches0 cacheF batches h h0
      simp only [fetch_all_loop] at h
      split at h
      · cases h; exact h0
      · refine ih _ _ _ _ h ?_
        intro b hb x hx
        rw [List.mem_append] at hb
        rcases hb with hb | hb
        · exact h0 b hb x hx
        · simp only [List.mem_singleton] at hb
          subst hb
          exact ((mem_get_missing _ _ _).mp hx).1

/-- C9: with more than one input file, extract_pmids rebinds its citation list
on each file and returns the sorted unique PubMed ids of the last file only;
earlier files contribute nothing, and fetch_all, whose body reads the
module-level pmids rather than its own citations parameter, therefore requests
only the final document's identifiers from the external client. -/
theorem extract_pmids_last_file_only
    (files : List Json) (h : 1 < files.length)
    (cache : PubmedCache) (client : List String → List PubmedEntry) (fuel : Nat) :
    extract_pmids files
      = some (pyStrSort (((gather_references (files.getLastD Json.other)).map
          (fun c => c.value)).dedup))
    ∧ (∀ p1 p2 g, fetch_all cache g p1 client fuel = fetch_all cache g p2 client fuel)
    ∧ (∀ cacheF batches,
        prefetch_pubmed_main files cache client fuel = some (some (cacheF, batches)) →
        ∀ b ∈ batches, ∀ x ∈ b,
          x ∈ pyStrSort (((gather_references (files.getLastD Json.other)).map
            (fun c => c.value)).dedup)) := by
  have hne : files ≠ [] := by
    intro h0
    rw [h0] at h
    simp at h
  have hext : extract_pmids files
      = some (pyStrSort (((gather_references (files.getLastD Json.other)).map
          (fun c => c.value)).dedup)) := by
    rw [extract_pmids, foldl_rebind _ files none hne]
    rfl
  refine ⟨hext, fun _ _ _ => rfl, ?_⟩
  intro cacheF batches hmain b hb x hx
  rw [prefetch_pubmed_main, hext] at hmain
  simp only [Option.map] at hmain
  have hmain2 := Option.some.inj hmain
  rw [fetch_all] at hmain2
  exact fetch_all_loop_batches client _ fuel cache [] cacheF batches hmain2
    (by intro b0 hb0; simp at hb0) b hb x hx

/-- Two concrete annotation documents; the first contains a PubMed citation
that the second does not. -/
def pfDemoFiles : List Json :=
  [Json.str "pubmed:999",
   Json.obj [("a", Json.str "pubmed:123 extra"),
             ("b", Json.arr [Json.str "pubmed:456", Json.str "no"])]]

theorem extract_pmids_last_file_only_witness :
    1 < pfDemoFiles.length ∧ extract_pmids pfDemoFiles = some ["123", "456"] := by
  refine ⟨by decide, ?_⟩
  rw [(extract_pmids_last_file_only pfDemoFiles (by decide) ⟨[]⟩ (fun _ => []) 0).1]
  simp [pfDemoFiles, gather_references, gatherKVs, gatherJsonList]
  decide

/-! ## mibig_html/annotations/mibig.py : data model

The annotation document types mirror the fields of the external
mibig.converters reader that mibig.py actually uses. The antismash Record,
CDSFeature and location helpers are external collaborators; they are modelled
with the semantics mibig.py relies on: a location is one or more
(start, end) spans, containment means every inner span sits inside the outer
span, and a record stores its CDS features, its alteration notes and an
abstract amino-acid translation oracle. -/

/-- An antismash FeatureLocation: a half-open 0-based span. The end field is
written with guillemets because end is a Lean keyword. -/
structure FeatureLocation where
  start : Int
  «end» : Int
  strand : Option Int
deriving Repr, DecidableEq

/-- A location: either a single span or a CompoundLocation of several exons. -/
inductive Location where
  | simple : FeatureLocation → Location
  | compound : List FeatureLocation → Location
deriving Repr, DecidableEq

/-- The spans making up a location. -/
def Location.parts : Location → List FeatureLocation
  | .simple f => [f]
  | .compound fs => fs

/-- The antismash location_contains_other helper: every part of the inner
location lies within some part of the outer location. -/
def location_contains_other (outer inner : Location) : Bool :=
  inner.parts.all (fun fi => outer.parts.any (fun fo =>
    decide (fo.start ≤ fi.start) && decide (fi.«end» ≤ fo.«end»)))

/-- An antismash CDSFeature, restricted to the fields mibig.py touches. -/
structure CDSFeature where
  location : Location
  locus_tag : Option String
  protein_id : Option String
  gene : Option String
  product : Option String
  translation : String
deriving Repr, DecidableEq

/-- CDSFeature.get_name: the first truthy one of locus tag, protein id and
gene name (the source raises when all are absent; that case is unused here). -/
def CDSFeature.get_name (c : CDSFeature) : String :=
  pyOrStr c.locus_tag (pyOrStr c.protein_id (pyOrStr c.gene ""))

/-- The genomic record: identifier, sequence length, CDS features, alteration
notes, and an abstract oracle for get_aa_translation_from_location. -/
structure Record where
  id : String
  seqLength : Nat
  cds_features : List CDSFeature
  alterations : List String
  aaTranslate : Location → String

/-- Record.get_cds_features_within_location with its default arguments: the
features fully contained in the given location. -/
def Record.get_cds_features_within_location (r : Record) (loc : Location) : List CDSFeature :=
  r.cds_features.filter (fun c => location_contains_other loc c.location)

/-- Record.add_cds_feature with auto_deduplicate=False: unconditional insertion. -/
def Record.add_cds_feature (r : Record) (c : CDSFeature) : Record :=
  { r with cds_features := r.cds_features ++ [c] }

/-- Record.add_alteration: appends a human-readable alteration note. -/
def Record.add_alteration (r : Record) (s : String) : Record :=
  { r with alterations := r.alterations ++ [s] }

/-- An exon of an extra gene (1-based inclusive annotation coordinates). -/
structure Exon where
  start : Int
  «end» : Int
deriving Repr, DecidableEq

/-- The location of an extra gene. -/
structure GeneLocation where
  exons : List Exon
  strand : Option Int
deriving Repr, DecidableEq

/-- A gene of the genes-to-add list of the annotation document. -/
structure ExtraGene where
  id : Option String
  location : Option GeneLocation
  translation : Option String
deriving Repr, DecidableEq

/-- A gene annotation entry of the annotation document. -/
structure GeneAnnot where
  id : String
  name : Option String
  product : Option String
deriving Repr, DecidableEq

/-- The genes section of the annotation document. The to_delete field is
modelled from the spec (the snapshot's genes-to-delete list); mibig.py never
reads it. -/
structure Genes where
  annotations : List GeneAnnot
  extra_genes : List ExtraGene
  to_delete : List String
deriving Repr, DecidableEq

/-- The locus of the annotation document (loci resolves to one accession). -/
structure Locus where
  accession : String
  start : Option Int
  «end» : Option Int
deriving Repr, DecidableEq

structure NrpsGene where
  gene_id : String
deriving Repr, DecidableEq

structure Thioesterase where
  gene : String
deriving Repr, DecidableEq

structure PksModule where
  genes : List String
deriving Repr, DecidableEq

structure Synthase where
  genes : List String
  modules : List PksModule
deriving Repr, DecidableEq

structure Nrp where
  nrps_genes : List NrpsGene
  thioesterases : List Thioesterase
deriving Repr, DecidableEq

structure Polyketide where
  synthases : List Synthase
deriving Repr, DecidableEq

structure Glycosyltransferase where
  gene_id : String
deriving Repr, DecidableEq

structure Saccharide where
  glycosyltransferases : List Glycosyltransferase
deriving Repr, DecidableEq

structure Moiety where
  subcluster : List String
deriving Repr, DecidableEq

structure CompoundInfo where
  chem_moieties : List Moiety
deriving Repr, DecidableEq

/-- The cluster of the annotation document (the fields mibig.py reads). -/
structure Cluster where
  mibig_accession : String
  biosynthetic_class : List String
  ncbi_tax_id : String
  loci : Locus
  genes : Option Genes
  nrp : Option Nrp
  polyketide : Option Polyketide
  saccharide : Option Saccharide
  compounds : List CompoundInfo
deriving Repr, DecidableEq

/-- The deserialized annotation document (mibig.converters Everything). -/
structure Everything where
  cluster : Cluster
deriving Repr, DecidableEq

/-- An antismash SubRegion produced by the sideloader. -/
structure SubRegion where
  location : FeatureLocation
  tool : String
  label : String
deriving Repr, DecidableEq

/-- The result object: record id, the computed subregion and the annotation
document. The taxonomy lookup and the reference-cache handles of the source
constructor are external I/O collaborators and carry no reconciliation logic. -/
structure MibigAnnotations where
  record_id : String
  area : SubRegion
  data : Everything
deriving Repr, DecidableEq

/-- The persisted minimal snapshot written by to_json. -/
structure MinimalSnapshot where
  record_id : String
  genbank_accession : String
  coords : Int × Int
  gene_annotations : List GeneAnnot
  extra_genes : List ExtraGene
deriving Repr, DecidableEq

/-- The exceptions raised by mibig.py, by Python class. -/
inductive PyErr where
  | antismashInput : String → PyErr
  | valueError : String → PyErr
  | indexError : String → PyErr
deriving Repr, DecidableEq

/-- The gene annotations of a document: data.cluster.genes.annotations if
data.cluster.genes else []. -/
def geneAnnotsOf (data : Everything) : List GeneAnnot :=
  match data.cluster.genes with
  | some g => g.annotations
  | none => []

/-- The genes-to-add of a document: data.cluster.genes.extra_genes if
data.cluster.genes else []. -/
def extraGenesOf (data : Everything) : List ExtraGene :=
  match data.cluster.genes with
  | some g => g.extra_genes
  | none => []

/-- The genes-to-delete of a document (never read by the loader). -/
def genesToDelete (data : Everything) : List String :=
  match data.cluster.genes with
  | some g => g.to_delete
  | none => []

/-- Embedding of MibigAnnotations.to_json: the reduced reuse-check payload,
with -1 substituted for a falsy start or end coordinate. -/
def MibigAnnotations.to_json (m : MibigAnnotations) : MinimalSnapshot :=
  { record_id := m.record_id,
    genbank_accession := m.data.cluster.loci.accession,
    coords := (pyOrInt m.data.cluster.loci.start (-1), pyOrInt m.data.cluster.loci.«end» (-1)),
    gene_annotations := geneAnnotsOf m.data,
    extra_genes := extraGenesOf m.data }

/-- The cluster subregion span: start - 1 if start is truthy else 0, and end
if truthy else the full record length (the expression at mibig.py lines 93-96
and 113-116). -/
def computeLociRegion (loci : Locus) (seqLength : Nat) : FeatureLocation :=
  { start := if pyTruthyInt loci.start then loci.start.getD 0 - 1 else 0,
    «end» := pyOrInt loci.«end» (Int.ofNat seqLength),
    strand := none }

/-- The SubRegion built by both loader paths: the loci span, tool mibig, and
the comma-joined biosynthetic class names as label. -/
def computeArea (data : Everything) (seqLength : Nat) : SubRegion :=
  { location := computeLociRegion data.cluster.loci seqLength,
    tool := "mibig",
    label := String.intercalate ", " data.cluster.biosynthetic_class }

/-- Embedding of MibigAnnotations.from_json: compares the freshly loaded
document and the current record against the persisted snapshot; on success
returns the result without touching the record, otherwise raises
AntismashInputError. -/
def MibigAnnotations.from_json (prev : MinimalSnapshot) (record : Record)
    (data : Everything) : Except PyErr MibigAnnotations :=
  let loci := data.cluster.loci
  let can_reuse :=
    if loci.accession ≠ prev.genbank_accession then false
    else if record.id ≠ prev.record_id then false
    else if pyOrInt loci.start (-1) ≠ prev.coords.1
        ∨ pyOrInt loci.«end» (-1) ≠ prev.coords.2 then false
    else if (geneAnnotsOf data).length ≠ prev.gene_annotations.length then false
    else if (extraGenesOf data).length ≠ prev.extra_genes.length then false
    else true
  if can_reuse then
    .ok { record_id := record.id, area := computeArea data record.seqLength, data := data }
  else
    .error (.antismashInput "Genbank record or gene annotations are updated, can't reuse result")

/-- The per-exon FeatureLocation list and final location of an extra gene:
CompoundLocation when there is more than one exon, the single exon otherwise;
none models the IndexError the source raises on an empty exon list. -/
def buildExtraLocation (gl : GeneLocation) : Option Location :=
  match gl.exons.map (fun e => FeatureLocation.mk (e.start - 1) e.«end» gl.strand) with
  | [] => none
  | [e0] => some (.simple e0)
  | e0 :: e1 :: rest => some (.compound (e0 :: e1 :: rest))

/-- The CDS feature inserted for one extra gene on the success path (none for
a gene skipped for lacking a truthy id or a location, or lacking exons). -/
def mkExtraCds (translate : Location → String) (gene : ExtraGene) : Option CDSFeature :=
  match gene.location, pyTruthyStr gene.id with
  | some gl, true =>
      match buildExtraLocation gl with
      | some location =>
          some { location := location,
                 locus_tag := some (gene.id.getD ""),
                 protein_id := none, gene := none, product := none,
                 translation := pyOrStr gene.translation (translate location) }
      | none => none
  | _, _ => none

/-- The record after inserting a list of extra genes that all lie in bounds:
each built feature is appended (no deduplication) together with its
"name was added" alteration note. -/
def insertExtras (record : Record) (genes : List ExtraGene) : Record :=
  { record with
    cds_features := record.cds_features ++ genes.filterMap (mkExtraCds record.aaTranslate),
    alterations := record.alterations
      ++ (genes.filterMap (mkExtraCds record.aaTranslate)).map
          (fun c => c.get_name ++ " was added") }

/-- Embedding of the genes-to-add loop of mibig_loader: genes without a truthy
id or a location are skipped; a gene whose location is not contained in the
cluster subregion raises ValueError immediately, leaving the record as mutated
so far; an in-bounds gene is inserted and its alteration note appended. -/
def processExtraGenes (area : SubRegion) :
    Record → List ExtraGene → Except (PyErr × Record) Record
  | record, [] => .ok record
  | record, gene :: rest =>
      match gene.location, pyTruthyStr gene.id with
      | some gl, true =>
          (match buildExtraLocation gl with
           | none => .error (.indexError "list index out of range", record)
           | some location =>
               if location_contains_other (.simple area.location) location then
                 let cds : CDSFeature :=
                   { location := location,
                     locus_tag := some (gene.id.getD ""),
                     protein_id := none, gene := none, product := none,
                     translation := pyOrStr gene.translation (record.aaTranslate location) }
                 processExtraGenes area
                   ((record.add_cds_feature cds).add_alteration (cds.get_name ++ " was added"))
                   rest
               else
                 .error (.valueError ("additional gene " ++ gene.id.getD ""
                   ++ " lies outside cluster"), record))
      | _, _ => processExtraGenes area record rest

/-- The matching cascade of the re-annotation loop: locus tag, then protein
id, then gene name, with Python truthiness on the feature fields. -/
def matchesAnnot (annot : GeneAnnot) (c : CDSFeature) : Bool :=
  if pyTruthyStr c.locus_tag && (annot.id == c.locus_tag.getD "") then true
  else if pyTruthyStr c.protein_id && (annot.id == c.protein_id.getD "") then true
  else if pyTruthyStr c.gene
      && (match annot.name with
          | some an => an == c.gene.getD ""
          | none => false) then true
  else false

/-- The inner annotation loop applied to one feature: every matching
annotation with a truthy product overwrites the feature's product. -/
def applyAnnots (annots : List GeneAnnot) (c : CDSFeature) : CDSFeature :=
  annots.foldl
    (fun c2 annot =>
      if matchesAnnot annot c2 then
        if pyTruthyStr annot.product then { c2 with product := annot.product } else c2
      else c2) c

/-- The re-annotation pass: every feature within the subregion goes through
the annotation loop, all others are untouched. -/
def reannotate (area : SubRegion) (annots : List GeneAnnot) (record : Record) : Record :=
  { record with
    cds_features := record.cds_features.map
      (fun c => if location_contains_other (.simple area.location) c.location
                then applyAnnots annots c else c) }

/-- The identifiers present on the record's CDS features (all features of the
record): locus tag, protein id and gene name of each, None filtered out. -/
def existingNames (r : Record) : List String :=
  r.cds_features.flatMap (fun c => [c.locus_tag, c.protein_id, c.gene].filterMap id)

/-- Every gene identifier referenced by the annotation document: gene
annotation ids, NRPS gene ids and thioesterase genes, polyketide synthase and
module genes, saccharide glycosyltransferase ids, and compound moiety
subclusters. -/
def referencedIds (data : Everything) : List String :=
  (match data.cluster.genes with
   | some g => g.annotations.map (fun a => a.id)
   | none => [])
  ++ (match data.cluster.nrp with
      | some n => n.nrps_genes.map (fun g => g.gene_id) ++ n.thioesterases.map (fun t => t.gene)
      | none => [])
  ++ (match data.cluster.polyketide with
      | some p => p.synthases.flatMap (fun syn => syn.genes ++ syn.modules.flatMap (fun m => m.genes))
      | none => [])
  ++ (match data.cluster.saccharide with
      | some s => s.glycosyltransferases.map (fun t => t.gene_id)
      | none => [])
  ++ data.cluster.compounds.flatMap (fun c => c.chem_moieties.flatMap (fun m => m.subcluster))

/-- The sorted deduplicated referenced-but-missing identifiers,
sorted(referenced.difference(existing)). -/
def missingIds (data : Everything) (r : Record) : List String :=
  pyStrSort (((referencedIds data).filter (fun x => !(existingNames r).contains x)).dedup)

/-- The if data.cluster.genes block of mibig_loader: insert the extra genes,
then re-annotate the features within the subregion. -/
def mergeGenes (data : Everything) (record : Record) : Except (PyErr × Record) Record :=
  match data.cluster.genes with
  | some genes =>
      match processExtraGenes (computeArea data record.seqLength) record genes.extra_genes with
      | .error e => .error e
      | .ok record1 => .ok (reannotate (computeArea data record.seqLength) genes.annotations record1)
  | none => .ok record

/-- Embedding of mibig_loader: compute the subregion, merge the gene data into
the record, then check referential integrity, raising ValueError with the
sorted missing identifiers when a referenced gene is absent. -/
def mibig_loader (data : Everything) (record : Record) :
    Except (PyErr × Record) (MibigAnnotations × Record) :=
  match mergeGenes data record with
  | .error e => .error e
  | .ok record2 =>
      if missingIds data record2 = [] then
        .ok ({ record_id := record2.id, area := computeArea data record.seqLength,
               data := data }, record2)
      else
        .error (.valueError (data.cluster.mibig_accession ++ " refers to missing genes: "
          ++ String.intercalate ", " (missingIds data record2)), record2)

theorem from_json_eq
    (prev : MinimalSnapshot) (record : Record) (data : Everything) :
    MibigAnnotations.from_json prev record data
      = (if data.cluster.loci.accession = prev.genbank_accession
            ∧ record.id = prev.record_id
            ∧ pyOrInt data.cluster.loci.start (-1) = prev.coords.1
            ∧ pyOrInt data.cluster.loci.«end» (-1) = prev.coords.2
            ∧ (geneAnnotsOf data).length = prev.gene_annotations.length
            ∧ (extraGenesOf data).length = prev.extra_genes.length
         then .ok ⟨record.id, computeArea data record.seqLength, data⟩
         else .error (.antismashInput
            "Genbank record or gene annotations are updated, can't reuse result")) := by
  by_cases h1 : data.cluster.loci.accession = prev.genbank_accession <;>
    by_cases h2 : record.id = prev.record_id <;>
    by_cases h3 : pyOrInt data.cluster.loci.start (-1) = prev.coords.1 <;>
    by_cases h4 : pyOrInt data.cluster.loci.«end» (-1) = prev.coords.2 <;>
    by_cases h5 : (geneAnnotsOf data).length = prev.gene_annotations.length <;>
    by_cases h6 : (extraGenesOf data).length = prev.extra_genes.length <;>
    simp [MibigAnnotations.from_json, h1, h2, h3, h4, h5, h6]

/-- C1 (amended): the reuse decision is exactly the conjunction of the five
persisted comparisons: genbank accession, record identifier, begin/end
coordinates with the -1 sentinel for a falsy coordinate, the count of gene
annotations, and the count of genes-to-add; the count of genes-to-delete is
neither persisted by to_json nor compared. On success the result is returned
and the reuse path performs no record operation at all (the embedding takes
the record purely by value); on any mismatch an AntismashInputError is
raised. -/
theorem from_json_reuse_iff_five_fields
    (prev : MinimalSnapshot) (record : Record) (data : Everything) :
    MibigAnnotations.from_json prev record data
      = (if data.cluster.loci.accession = prev.genbank_accession
            ∧ record.id = prev.record_id
            ∧ pyOrInt data.cluster.loci.start (-1) = prev.coords.1
            ∧ pyOrInt data.cluster.loci.«end» (-1) = prev.coords.2
            ∧ (geneAnnotsOf data).length = prev.gene_annotations.length
            ∧ (extraGenesOf data).length = prev.extra_genes.length
         then .ok ⟨record.id, computeArea data record.seqLength, data⟩
         else .error (.antismashInput
            "Genbank record or gene annotations are updated, can't reuse result")) :=
  from_json_eq prev record data

def c1Loci : Locus := ⟨"AB1", some 100, some 500⟩

def c1DataOld : Everything :=
  ⟨⟨"BGC1", ["NRP"], "1", c1Loci, some ⟨[], [], ["x"]⟩, none, none, none, []⟩⟩

def c1DataNew : Everything :=
  ⟨⟨"BGC1", ["NRP"], "1", c1Loci, some ⟨[], [], []⟩, none, none, none, []⟩⟩

def c1Rec : Record := ⟨"r1", 1000, [], [], fun _ => ""⟩

def c1MOld : MibigAnnotations := ⟨"r1", computeArea c1DataOld 1000, c1DataOld⟩

/-- C1 counterexample: a previous run whose document had one gene-to-delete
and a current document with none differ in the count of genes-to-delete, yet
from_json permits reuse: the sixth comparison of the claim does not happen. -/
theorem from_json_ignores_genes_to_delete_counterexample :
    (MibigAnnotations.from_json (MibigAnnotations.to_json c1MOld) c1Rec c1DataNew).isOk = true
    ∧ (genesToDelete c1DataNew).length ≠ (genesToDelete c1DataOld).length := by
  exact ⟨rfl, by decide⟩

theorem from_json_reuse_iff_five_fields_witness :
    MibigAnnotations.from_json (MibigAnnotations.to_json c1MOld) c1Rec c1DataOld
      = Except.ok ⟨c1Rec.id, computeArea c1DataOld c1Rec.seqLength, c1DataOld⟩ := by
  rw [from_json_reuse_iff_five_fields]
  rfl

theorem mibig_loader_ok_area (data : Everything) (record : Record)
    (m : MibigAnnotations) (rec2 : Record)
    (h : mibig_loader data record = .ok (m, rec2)) :
    m.area = computeArea data record.seqLength := by
  rw [mibig_loader] at h
  cases hm : mergeGenes data record with
  | error e => rw [hm] at h; exact Except.noConfusion h
  | ok r2 =>
      rw [hm] at h
      dsimp only [] at h
      split at h
      · obtain ⟨h3, h4⟩ := Prod.mk.inj (Except.ok.inj h)
        rw [← h3]
      · exact absurd h (by simp)

theorem from_json_ok_area (prev : MinimalSnapshot) (record : Record)
    (data : Everything) (m : MibigAnnotations)
    (h : MibigAnnotations.from_json prev record data = .ok m) :
    m.area = computeArea data record.seqLength := by
  rw [from_json_eq] at h
  split at h
  · rw [← Except.ok.inj h]
  · exact absurd h (by simp)

/-- C5: on both loader paths the computed subregion starts at begin - 1 when
the locus begin is present (as a nonzero 1-based coordinate), else at 0, ends
at the locus end when present, else at the full record length, and is labelled
with the comma-joined biosynthetic class names (tool mibig). -/
theorem subregion_begin_end_label
    (data : Everything) (record : Record) (prev : MinimalSnapshot)
    (hs : data.cluster.loci.start ≠ some 0)
    (he : data.cluster.loci.«end» ≠ some 0) :
    (∀ m rec2, mibig_loader data record = .ok (m, rec2) →
      m.area.location.start
        = (match data.cluster.loci.start with
           | none => 0
           | some b => b - 1)
      ∧ m.area.location.«end»
        = (match data.cluster.loci.«end» with
           | none => Int.ofNat record.seqLength
           | some e => e)
      ∧ m.area.label = String.intercalate ", " data.cluster.biosynthetic_class
      ∧ m.area.tool = "mibig")
    ∧ (∀ m, MibigAnnotations.from_json prev record data = .ok m →
      m.area.location.start
        = (match data.cluster.loci.start with
           | none => 0
           | some b => b - 1)
      ∧ m.area.location.«end»
        = (match data.cluster.loci.«end» with
           | none => Int.ofNat record.seqLength
           | some e => e)
      ∧ m.area.label = String.intercalate ", " data.cluster.biosynthetic_class
      ∧ m.area.tool = "mibig") := by
  have hstart : (computeArea data record.seqLength).location.start
      = (match data.cluster.loci.start with
         | none => 0
         | some b => b - 1) := by
    cases hfield : data.cluster.loci.start with
    | none => simp [computeArea, computeLociRegion, pyTruthyInt, hfield]
    | some b =>
        have hb : b ≠ 0 := by
          intro h0
          rw [h0] at hfield
          exact hs hfield
        simp [computeArea, computeLociRegion, pyTruthyInt, hfield, hb]
  have hend : (computeArea data record.seqLength).location.«end»
      = (match data.cluster.loci.«end» with
         | none => Int.ofNat record.seqLength
         | some e => e) := by
    cases hfield : data.cluster.loci.«end» with
    | none => simp [computeArea, computeLociRegion, pyOrInt, hfield]
    | some e =>
        have hb : e ≠ 0 := by
          intro h0
          rw [h0] at hfield
          exact he hfield
        simp [computeArea, computeLociRegion, pyOrInt, hfield, hb]
  constructor
  · intro m rec2 h
    rw [mibig_loader_ok_area data record m rec2 h]
    exact ⟨hstart, hend, rfl, rfl⟩
  · intro m h
    rw [from_json_ok_area prev record data m h]
    exact ⟨hstart, hend, rfl, rfl⟩

theorem subregion_begin_end_label_witness :
    c1DataOld.cluster.loci.start ≠ some 0
    ∧ c1MOld.area.location.start
        = (match c1DataOld.cluster.loci.start with
           | none => 0
           | some b => b - 1)
    ∧ c1MOld.area.location.«end»
        = (match c1DataOld.cluster.loci.«end» with
           | none => Int.ofNat c1Rec.seqLength
           | some e => e) :=
  ⟨by decide,
   ((subregion_begin_end_label c1DataOld c1Rec (MibigAnnotations.to_json c1MOld)
      (by decide) (by decide)).2 c1MOld rfl).1,
   ((subregion_begin_end_label c1DataOld c1Rec (MibigAnnotations.to_json c1MOld)
      (by decide) (by decide)).2 c1MOld rfl).2.1⟩

/-- The existing-identifier set as the claim words it (spec reading): built
only from the record's gene features lying within the subregion. The source
instead collects from all features of the record; this definition exists to
state that difference. -/
def existingNamesWithinSubregion (area : SubRegion) (r : Record) : List String :=
  (r.cds_features.filter
    (fun c => location_contains_other (.simple area.location) c.location)).flatMap
      (fun c => [c.locus_tag, c.protein_id, c.gene].filterMap id)

def c2Loci : Locus := ⟨"AB2", some 1, some 100⟩

def c2Cds : CDSFeature :=
  ⟨.simple ⟨200, 300, none⟩, some "geneA", none, none, none, ""⟩

def c2Rec : Record := ⟨"r2", 1000, [c2Cds], [], fun _ => ""⟩

def c2Data : Everything :=
  ⟨⟨"BGC2", ["NRP"], "1", c2Loci, some ⟨[⟨"geneA", none, none⟩], [], []⟩,
    none, none, none, []⟩⟩

/-- C2 counterexample: the referenced gene geneA exists only outside the
subregion; were the existing set restricted to the subregion the merge would
have to raise a dangling-reference error, but mibig_loader collects
identifiers from the whole record and succeeds. -/
theorem mibig_loader_dangling_scope_counterexample :
    (mibig_loader c2Data c2Rec).isOk = true
    ∧ "geneA" ∈ referencedIds c2Data
    ∧ "geneA" ∉ existingNamesWithinSubregion (computeArea c2Data c2Rec.seqLength) c2Rec := by
  refine ⟨rfl, by decide, by decide⟩

/-- C2 (amended): after the merge, the existing identifiers are collected
from ALL gene features of the record (locus tag, protein id and gene name),
not only those within the subregion; the referenced identifiers cover the
gene annotations and the biosynthesis description (NRP genes and
thioesterases, polyketide synthase and module genes, saccharide
glycosyltransferases, compound moiety subclusters); when any referenced
identifier is absent, the loader raises an error naming the annotation
accession and listing exactly the missing identifiers, sorted and without
duplicates. -/
theorem mibig_loader_dangling_missing_sorted
    (data : Everything) (record record2 : Record)
    (hstep : mergeGenes data record = .ok record2) :
    (mibig_loader data record
      = if missingIds data record2 = []
        then .ok (⟨record2.id, computeArea data record.seqLength, data⟩, record2)
        else .error (.valueError (data.cluster.mibig_accession ++ " refers to missing genes: "
            ++ String.intercalate ", " (missingIds data record2)), record2))
    ∧ (∀ x, x ∈ missingIds data record2 ↔ (x ∈ referencedIds data ∧ x ∉ existingNames record2))
    ∧ (missingIds data record2).Pairwise (fun a b => pyStrLe a b = true)
    ∧ (missingIds data record2).Nodup := by
  refine ⟨?_, ?_, ?_, ?_⟩
  · rw [mibig_loader, hstep]
  · intro x
    rw [missingIds, mem_pyStrSort, List.mem_dedup, List.mem_filter]
    simp
  · rw [missingIds]
    exact sorted_pyStrSort _
  · rw [missingIds]
    exact (pyStrSort_perm _).nodup_iff.mpr (List.nodup_dedup _)

def c2bData : Everything :=
  ⟨⟨"BGC3", ["NRP"], "1", c2Loci, some ⟨[⟨"zzz", none, none⟩], [], []⟩,
    none, none, none, []⟩⟩

theorem mibig_loader_dangling_missing_sorted_witness :
    mergeGenes c2bData c2Rec = Except.ok c2Rec
    ∧ mibig_loader c2bData c2Rec
        = Except.error (PyErr.valueError "BGC3 refers to missing genes: zzz", c2Rec) := by
  refine ⟨rfl, ?_⟩
  have h := (mibig_loader_dangling_missing_sorted c2bData c2Rec c2Rec rfl).1
  rw [h]
  rfl

/-- The record genes an identifier resolves to (by locus tag, protein id or
gene name); used to state the ambiguity property. -/
def genesResolving (r : Record) (name : String) : List CDSFeature :=
  r.cds_features.filter
    (fun c => (c.locus_tag == some name) || (c.protein_id == some name) || (c.gene == some name))

def c3Rec : Record :=
  ⟨"r3", 1000,
   [⟨.simple ⟨10, 20, none⟩, some "a1", none, some "dup", none, ""⟩,
    ⟨.simple ⟨30, 40, none⟩, some "a2", none, some "dup", none, ""⟩],
   [], fun _ => ""⟩

def c3Data : Everything :=
  ⟨⟨"BGC4", ["NRP"], "1", c2Loci, some ⟨[⟨"dup", none, none⟩], [], []⟩,
    none, none, none, []⟩⟩

/-- C3 counterexample: the referenced identifier dup resolves to two genes of
the record, yet mibig_loader returns a result instead of raising an
ambiguous-reference error. -/
theorem mibig_loader_no_ambiguity_counterexample :
    (mibig_loader c3Data c3Rec).isOk = true
    ∧ "dup" ∈ referencedIds c3Data
    ∧ (genesResolving c3Rec "dup").length = 2 := by
  refine ⟨rfl, by decide, by decide⟩

/-- C3 (amended): mibig_loader performs no ambiguous-reference detection at
all: whenever the gene merge succeeds and no referenced identifier is
missing, it returns an AnnotationResult even if some referenced identifier
resolves to more than one gene of the record. -/
theorem mibig_loader_no_ambiguity_check
    (data : Everything) (record record2 : Record) (x : String)
    (hstep : mergeGenes data record = .ok record2)
    (hmiss : missingIds data record2 = [])
    (hx : x ∈ referencedIds data)
    (hamb : 2 ≤ (genesResolving record2 x).length) :
    mibig_loader data record
      = .ok (⟨record2.id, computeArea data record.seqLength, data⟩, record2) := by
  rw [mibig_loader, hstep]
  dsimp only []
  rw [if_pos hmiss]

theorem mibig_loader_no_ambiguity_check_witness :
    2 ≤ (genesResolving c3Rec "dup").length
    ∧ mibig_loader c3Data c3Rec
        = Except.ok (⟨"r3", computeArea c3Data 1000, c3Data⟩, c3Rec) :=
  ⟨by decide,
   mibig_loader_no_ambiguity_check c3Data c3Rec c3Rec "dup" rfl rfl
     (by decide) (by decide)⟩

theorem insertExtras_nil (r : Record) : insertExtras r [] = r := by
  simp [insertExtras]

theorem insertExtras_cons_none (r : Record) (g : ExtraGene) (gs : List ExtraGene)
    (h : mkExtraCds r.aaTranslate g = none) :
    insertExtras r (g :: gs) = insertExtras r gs := by
  simp [insertExtras, List.filterMap_cons, h]

theorem insertExtras_cons_some (r : Record) (g : ExtraGene) (gs : List ExtraGene)
    (c : CDSFeature) (h : mkExtraCds r.aaTranslate g = some c) :
    insertExtras r (g :: gs)
      = insertExtras ((r.add_cds_feature c).add_alteration (c.get_name ++ " was added")) gs := by
  simp [insertExtras, List.filterMap_cons, h, Record.add_cds_feature, Record.add_alteration]

theorem processExtraGenes_first_violation (area : SubRegion) :
    ∀ (pre : List ExtraGene) (record : Record) (gbad : ExtraGene) (post : List ExtraGene)
      (gl : GeneLocation) (loc : Location),
      (∀ g ∈ pre, pyTruthyStr g.id = true → g.location.isSome = true →
        ∃ gl2 loc2, g.location = some gl2 ∧ buildExtraLocation gl2 = some loc2
          ∧ location_contains_other (.simple area.location) loc2 = true) →
      pyTruthyStr gbad.id = true → gbad.location = some gl →
      buildExtraLocation gl = some loc →
      location_contains_other (.simple area.location) loc = false →
      processExtraGenes area record (pre ++ gbad :: post)
        = .error (.valueError ("additional gene " ++ gbad.id.getD ""
              ++ " lies outside cluster"),
            insertExtras record pre) := by
  intro pre
  induction pre with
  | nil =>
      intro record gbad post gl loc hpre hid hloc hbuild hout
      simp only [List.nil_append, processExtraGenes, hloc, hid, hbuild, hout,
        insertExtras_nil]
      rfl
  | cons g pre2 ih =>
      intro record gbad post gl loc hpre hid hloc hbuild hout
      cases hgl : g.location with
      | none =>
          have hmk : mkExtraCds record.aaTranslate g = none := by
            simp [mkExtraCds, hgl]
          rw [insertExtras_cons_none record g pre2 hmk]
          have hred : processExtraGenes area record ((g :: pre2) ++ gbad :: post)
              = processExtraGenes area record (pre2 ++ gbad :: post) := by
            simp [processExtraGenes, hgl]
          rw [hred]
          exact ih record gbad post gl loc
            (fun g2 hg2 => hpre g2 (List.mem_cons_of_mem _ hg2)) hid hloc hbuild hout
      | some gl2 =>
          by_cases hid2 : pyTruthyStr g.id = true
          · obtain ⟨gl3, loc3, hsome, hbuild3, hin⟩ :=
              hpre g (List.mem_cons_self _ _) hid2 (by rw [hgl]; rfl)
            rw [hgl] at hsome
            injection hsome with h3
            subst h3
            have hmk : mkExtraCds record.aaTranslate g
                = some { location := loc3,
                         locus_tag := some (g.id.getD ""),
                         protein_id := none, gene := none, product := none,
                         translation := pyOrStr g.translation (record.aaTranslate loc3) } := by
              simp [mkExtraCds, hgl, hid2, hbuild3]
            rw [insertExtras_cons_some record g pre2 _ hmk]
            have hred : processExtraGenes area record ((g :: pre2) ++ gbad :: post)
                = processExtraGenes area
                    ((record.add_cds_feature
                        { location := loc3,
                          locus_tag := some (g.id.getD ""),
                          protein_id := none, gene := none, product := none,
                          translation := pyOrStr g.translation
                            (record.aaTranslate loc3) }).add_alteration
                      (CDSFeature.get_name
                        { location := loc3,
                          locus_tag := some (g.id.getD ""),
                          protein_id := none, gene := none, product := none,
                          translation := pyOrStr g.translation (record.aaTranslate loc3) }
                        ++ " was added"))
                    (pre2 ++ gbad :: post) := by
              simp [processExtraGenes, hgl, hid2, hbuild3, hin]
            rw [hred]
            exact ih _ gbad post gl loc
              (fun g2 hg2 => hpre g2 (List.mem_cons_of_mem _ hg2)) hid hloc hbuild hout
          · have hfalse : pyTruthyStr g.id = false := by
              simpa using hid2
            have hmk : mkExtraCds record.aaTranslate g = none := by
              simp [mkExtraCds, hgl, hfalse]
            rw [insertExtras_cons_none record g pre2 hmk]
            have hred : processExtraGenes area record ((g :: pre2) ++ gbad :: post)
                = processExtraGenes area record (pre2 ++ gbad :: post) := by
              simp [processExtraGenes, hgl, hfalse]
            rw [hred]
            exact ih record gbad post gl loc
              (fun g2 hg2 => hpre g2 (List.mem_cons_of_mem _ hg2)) hid hloc hbuild hout

/-- C4: when a gene of genes-to-add (with a truthy id and a location) is the
first whose location is not contained in the computed subregion, mibig_loader
raises at exactly that gene: the error names it, every in-bounds gene before
it has been inserted (without deduplication) with its alteration note of the
form name was added, and neither the offending gene nor any later one is
inserted. -/
theorem mibig_loader_extra_gene_geometry
    (data : Everything) (record : Record) (gs : Genes)
    (pre : List ExtraGene) (gbad : ExtraGene) (post : List ExtraGene)
    (gl : GeneLocation) (loc : Location)
    (hg : data.cluster.genes = some gs)
    (hsplit : gs.extra_genes = pre ++ gbad :: post)
    (hpre : ∀ g ∈ pre, pyTruthyStr g.id = true → g.location.isSome = true →
      ∃ gl2 loc2, g.location = some gl2 ∧ buildExtraLocation gl2 = some loc2
        ∧ location_contains_other
            (.simple (computeArea data record.seqLength).location) loc2 = true)
    (hid : pyTruthyStr gbad.id = true) (hloc : gbad.location = some gl)
    (hbuild : buildExtraLocation gl = some loc)
    (hout : location_contains_other
        (.simple (computeArea data record.seqLength).location) loc = false) :
    mibig_loader data record
      = .error (.valueError ("additional gene " ++ gbad.id.getD ""
            ++ " lies outside cluster"),
          insertExtras record pre)
    ∧ (insertExtras record pre).cds_features
        = record.cds_features ++ pre.filterMap (mkExtraCds record.aaTranslate)
    ∧ (insertExtras record pre).alterations
        = record.alterations ++ (pre.filterMap (mkExtraCds record.aaTranslate)).map
            (fun c => c.get_name ++ " was added") := by
  have hproc := processExtraGenes_first_violation
    (computeArea data record.seqLength) pre record gbad post gl loc
    hpre hid hloc hbuild hout
  refine ⟨?_, rfl, rfl⟩
  rw [mibig_loader, mergeGenes, hg]
  dsimp only []
  rw [hsplit, hproc]

def c4Good : ExtraGene := ⟨some "g1", some ⟨[⟨11, 20⟩], some 1⟩, some "MT"⟩

def c4Bad : ExtraGene := ⟨some "g2", some ⟨[⟨201, 300⟩], some 1⟩, none⟩

def c4Good2 : ExtraGene := ⟨some "g3", some ⟨[⟨21, 30⟩], none⟩, some "MM"⟩

def c4Data : Everything :=
  ⟨⟨"BGC5", ["PKS"], "1", c2Loci, some ⟨[], [c4Good, c4Bad, c4Good2], []⟩,
    none, none, none, []⟩⟩

def c4Rec : Record := ⟨"r4", 1000, [], [], fun _ => "XX"⟩

theorem mibig_loader_extra_gene_geometry_witness :
    mibig_loader c4Data c4Rec
      = Except.error (PyErr.valueError "additional gene g2 lies outside cluster",
          insertExtras c4Rec [c4Good])
    ∧ (insertExtras c4Rec [c4Good]).alterations = ["g1 was added"]
    ∧ (insertExtras c4Rec [c4Good]).cds_features.length = 1 := by
  refine ⟨?_, rfl, rfl⟩
  exact (mibig_loader_extra_gene_geometry c4Data c4Rec
    ⟨[], [c4Good, c4Bad, c4Good2], []⟩ [c4Good] c4Bad [c4Good2]
    ⟨[⟨201, 300⟩], some 1⟩ (.simple ⟨200, 300, some 1⟩)
    rfl rfl
    (by
      intro g hg h1 h2
      simp only [List.mem_singleton] at hg
      subst hg
      exact ⟨⟨[⟨11, 20⟩], some 1⟩, .simple ⟨10, 20, some 1⟩, rfl, rfl, by decide⟩)
    rfl rfl rfl (by decide)).1

/-- The final product of a feature after the annotation loop: the last
matching annotation with a truthy product wins, else the original product. -/
def productFold (annots : List GeneAnnot) (c : CDSFeature) : Option String :=
  annots.foldl
    (fun p a => if matchesAnnot a c && pyTruthyStr a.product then a.product else p)
    c.product

theorem applyAnnots_spec (annots : List GeneAnnot) :
    ∀ c : CDSFeature, applyAnnots annots c = { c with product := productFold annots c } := by
  induction annots with
  | nil => intro c; rfl
  | cons a l ih =>
      intro c
      by_cases hm : matchesAnnot a c = true
      · by_cases hp : pyTruthyStr a.product = true
        · have h1 : applyAnnots (a :: l) c = applyAnnots l { c with product := a.product } := by
            simp [applyAnnots, hm, hp]
          have e1 : productFold l { c with product := a.product }
              = List.foldl
                (fun p a2 => if matchesAnnot a2 c && pyTruthyStr a2.product then a2.product else p)
                a.product l := rfl
          have e2 : productFold (a :: l) c
              = List.foldl
                (fun p a2 => if matchesAnnot a2 c && pyTruthyStr a2.product then a2.product else p)
                (if matchesAnnot a c && pyTruthyStr a.product then a.product else c.product) l := rfl
          have h2 : productFold (a :: l) c = productFold l { c with product := a.product } := by
            rw [e1, e2, hm, hp]
            rfl
          rw [h1, ih, h2]
        · have hp2 : pyTruthyStr a.product = false := by simpa using hp
          have h1 : applyAnnots (a :: l) c = applyAnnots l c := by
            simp [applyAnnots, hm, hp2]
          have e2 : productFold (a :: l) c
              = List.foldl
                (fun p a2 => if matchesAnnot a2 c && pyTruthyStr a2.product then a2.product else p)
                (if matchesAnnot a c && pyTruthyStr a.product then a.product else c.product) l := rfl
          have h2 : productFold (a :: l) c = productFold l c := by
            rw [e2, hm, hp2]
            rfl
          rw [h1, ih, h2]
      · have hm2 : matchesAnnot a c = false := by simpa using hm
        have h1 : applyAnnots (a :: l) c = applyAnnots l c := by
          simp [applyAnnots, hm2]
        have e2 : productFold (a :: l) c
            = List.foldl
              (fun p a2 => if matchesAnnot a2 c && pyTruthyStr a2.product then a2.product else p)
              (if matchesAnnot a c && pyTruthyStr a.product then a.product else c.product) l := rfl
        have h2 : productFold (a :: l) c = productFold l c := by
          rw [e2, hm2]
          rfl
        rw [h1, ih, h2]

theorem matchesAnnot_eq (a : GeneAnnot) (c : CDSFeature) :
    matchesAnnot a c
      = ((pyTruthyStr c.locus_tag && (a.id == c.locus_tag.getD ""))
         || (pyTruthyStr c.protein_id && (a.id == c.protein_id.getD ""))
         || (pyTruthyStr c.gene
             && (match a.name with
                 | some an => an == c.gene.getD ""
                 | none => false))) := by
  rw [matchesAnnot]
  split_ifs <;> simp_all

theorem applyAnnots_no_match (annots : List GeneAnnot) (c : CDSFeature)
    (h : ∀ a ∈ annots, matchesAnnot a c = false) :
    applyAnnots annots c = c := by
  rw [applyAnnots_spec]
  have h2 : ∀ (l : List GeneAnnot), (∀ a ∈ l, matchesAnnot a c = false) →
      ∀ p, List.foldl
        (fun p a => if matchesAnnot a c && pyTruthyStr a.product then a.product else p)
        p l = p := by
    intro l
    induction l with
    | nil => intro _ p; rfl
    | cons a l2 ih =>
        intro hl p
        have ha := hl a (List.mem_cons_self _ _)
        simp only [List.foldl_cons, ha, Bool.false_and, Bool.false_eq_true, if_false]
        exact ih (fun a2 hmem => hl a2 (List.mem_cons_of_mem _ hmem)) p
  have h3 : productFold annots c = c.product := h2 annots h c.product
  rw [h3]

/-- C6: after the extra-gene pass, every record feature within the subregion
goes through the annotation matching loop and features outside it are left
untouched; a feature matches an annotation by locus tag, protein id or gene
name, checked with that field priority (the outcome is the disjunction
below); every matching annotation supplying a truthy product overwrites the
feature's product and only the product (so the last matching supplier wins),
and a feature matching no annotation is unchanged. -/
theorem mibig_loader_reannotation_matching
    (data : Everything) (record : Record) (gs : Genes) (record1 : Record)
    (hg : data.cluster.genes = some gs)
    (hext : processExtraGenes (computeArea data record.seqLength) record gs.extra_genes
      = .ok record1) :
    (mergeGenes data record
      = .ok (reannotate (computeArea data record.seqLength) gs.annotations record1))
    ∧ (reannotate (computeArea data record.seqLength) gs.annotations record1).cds_features
        = record1.cds_features.map (fun c =>
            if location_contains_other
                (.simple (computeArea data record.seqLength).location) c.location
            then applyAnnots gs.annotations c else c)
    ∧ (∀ c, applyAnnots gs.annotations c = { c with product := productFold gs.annotations c })
    ∧ (∀ c, (∀ a ∈ gs.annotations, matchesAnnot a c = false) →
        applyAnnots gs.annotations c = c)
    ∧ (∀ a c, matchesAnnot a c = true ↔
        ((pyTruthyStr c.locus_tag = true ∧ a.id = c.locus_tag.getD "")
         ∨ (pyTruthyStr c.protein_id = true ∧ a.id = c.protein_id.getD "")
         ∨ (pyTruthyStr c.gene = true ∧ a.name = some (c.gene.getD "")))) := by
  refine ⟨?_, rfl, applyAnnots_spec gs.annotations,
    fun c h => applyAnnots_no_match gs.annotations c h, ?_⟩
  · rw [mergeGenes, hg]
    dsimp only []
    rw [hext]
  · intro a c
    rw [matchesAnnot_eq]
    cases hn : a.name with
    | none => simp
    | some an =>
        simp only [Bool.or_eq_true, Bool.and_eq_true, beq_iff_eq, hn, Option.some.injEq]
        tauto

def c6Cds : CDSFeature :=
  ⟨.simple ⟨150, 200, none⟩, some "abcA", none, none, some "hypothetical protein", "SEQ"⟩

def c6Annots : List GeneAnnot := [⟨"abcA", none, some "polyketide synthase"⟩]

def c6Gs : Genes := ⟨c6Annots, [], []⟩

def c6Data : Everything :=
  ⟨⟨"BGC0000001", ["PKS"], "1", ⟨"ACC6", some 100, some 500⟩, some c6Gs,
    none, none, none, []⟩⟩

def c6Rec : Record := ⟨"r6", 1000, [c6Cds], [], fun _ => ""⟩

theorem mibig_loader_reannotation_matching_witness :
    mergeGenes c6Data c6Rec
      = Except.ok (reannotate (computeArea c6Data c6Rec.seqLength) c6Annots c6Rec)
    ∧ (applyAnnots c6Annots c6Cds).product = some "polyketide synthase"
    ∧ (reannotate (computeArea c6Data c6Rec.seqLength) c6Annots c6Rec).cds_features
        = [{ c6Cds with product := some "polyketide synthase" }] := by
  refine ⟨(mibig_loader_reannotation_matching c6Data c6Rec c6Gs c6Rec rfl rfl).1, ?_, ?_⟩
  · rfl
  · rfl
